import Mathlib

/-!
Verification of the orbs-tee-host core against its specification.

Shallow embedding of:
* `retryWithBackoff` (src/utils/retry.ts)
* `L3Client.submitAttestation` / `checkGuardiansHealth` (src/l3/client.ts)
* `UnixSocketClient` / `VsocketClient` wire protocol and lifecycle
  (src/vsock/client.ts)

Machine integers are modelled as `Nat`; bytes are `Nat` values; JS
exceptions are modelled with `Except`; a JS value that can be an
`Error` object or `undefined` is modelled as `Option`.
-/

set_option maxHeartbeats 1000000

/-- Whether an `Except` value is a success (`Except.ok`). -/
def exceptIsOk {ε α : Type} : Except ε α → Bool
  | .ok _ => true
  | .error _ => false

/-- The error carried by an `Except` value, if any. -/
def exceptErr {ε α : Type} : Except ε α → Option ε
  | .ok _ => none
  | .error e => some e

/-! ## RetryPolicy: `retryWithBackoff` (src/utils/retry.ts lines 53-85) -/

/-- Observable events of one `retryWithBackoff` run: an invocation of the
wrapped operation (with its attempt number, 1-based, and its outcome), or a
`sleep(ms)` call.  The `logger.debug` and `onRetry` observer calls of the
source are side-effect-only diagnostics and are not modelled. -/
inductive REvent (E T : Type) where
  | attemptEv (attempt : Nat) (outcome : Except E T)
  | sleepEv (ms : Nat)

/-- Whether an event is an operation invocation. -/
def isAttemptEv {E T : Type} : REvent E T → Bool
  | .attemptEv _ _ => true
  | .sleepEv _ => false

/-- Number of operation invocations recorded in an event trace. -/
def countAttempts {E T : Type} (events : List (REvent E T)) : Nat :=
  events.countP isAttemptEv

/-- The `RetryOptions` record of src/utils/retry.ts (the optional `onRetry`
diagnostic callback is not modelled; per the spec it must not alter control
flow). -/
structure RetryOptions where
  maxAttempts : Nat
  delayMs : Nat
  backoffMultiplier : Nat

/-- The `for (let attempt = 1; attempt <= maxAttempts; attempt++)` loop of
`retryWithBackoff`.  `operation attempt` is the outcome the wrapped async
operation produces on the given attempt.  The final `throw lastError` is
modelled by `Except.error lastError` where `lastError : Option E`
(`none` is the initial JS `undefined`).  On a non-final failure the code
calls `sleep(delay)` and then scales via `delay *= backoffMultiplier`. -/
def retryLoop {E T : Type} (operation : Nat → Except E T)
    (maxAttempts attempt delayMs mult : Nat) (lastError : Option E) :
    Except (Option E) T × List (REvent E T) :=
  if attempt ≤ maxAttempts then
    match operation attempt with
    | .ok v => (.ok v, [.attemptEv attempt (.ok v)])
    | .error e =>
      if attempt < maxAttempts then
        let r := retryLoop operation maxAttempts (attempt + 1) (delayMs * mult) mult (some e)
        (r.1, .attemptEv attempt (.error e) :: .sleepEv delayMs :: r.2)
      else
        let r := retryLoop operation maxAttempts (attempt + 1) delayMs mult (some e)
        (r.1, .attemptEv attempt (.error e) :: r.2)
  else (.error lastError, [])
termination_by maxAttempts + 1 - attempt
decreasing_by all_goals omega

/-- `retryWithBackoff(operation, options)` of src/utils/retry.ts: runs the
attempt loop starting from attempt 1 with `delay = options.delayMs` and
`lastError = undefined`.  Returns the overall outcome together with the
event trace. -/
def retryWithBackoff {E T : Type} (operation : Nat → Except E T)
    (options : RetryOptions) : Except (Option E) T × List (REvent E T) :=
  retryLoop operation options.maxAttempts 1 options.delayMs options.backoffMultiplier none

/-- Modelled from the spec: the event trace the specification prescribes for
a run of `maxAttempts = n ≥ 1` attempts that all fail — attempts `1..n` in
order, with a sleep of `delayMs * backoffMultiplier ^ (k - 1)` strictly
between attempt `k` and attempt `k + 1`, no sleep before the first attempt
and none after the last. -/
def failEvents {E T : Type} (operation : Nat → Except E T)
    (delayMs mult n : Nat) : List (REvent E T) :=
  ((List.range' 1 n).map (fun k =>
    REvent.attemptEv k (operation k) ::
      (if k < n then [REvent.sleepEv (delayMs * mult ^ (k - 1))] else []))).flatten

theorem retryLoop_all_fail {E T : Type} (operation : Nat → Except E T)
    (n lo dc m : Nat) (le : Option E) (h2 : lo ≤ n)
    (hfail : ∀ j, lo ≤ j → j ≤ n → exceptIsOk (operation j) = false) :
    (retryLoop operation n lo dc m le).1 = .error (exceptErr (operation n)) ∧
    (retryLoop operation n lo dc m le).2 =
      ((List.range' lo (n + 1 - lo)).map (fun k =>
        REvent.attemptEv k (operation k) ::
          (if k < n then [REvent.sleepEv (dc * m ^ (k - lo))] else []))).flatten := by
  have hflo := hfail lo (le_refl lo) h2
  cases hop : operation lo with
  | ok v => rw [hop] at hflo; simp [exceptIsOk] at hflo
  | error e =>
    by_cases hlt : lo < n
    · have ih := retryLoop_all_fail operation n (lo + 1) (dc * m) m (some e) hlt
        (fun j hj1 hj2 => hfail j (by omega) hj2)
      rw [retryLoop, if_pos h2, hop]
      dsimp only
      rw [if_pos hlt]
      refine ⟨ih.1, ?_⟩
      rw [ih.2]
      have hr : n + 1 - lo = (n - lo) + 1 := by omega
      have hr2 : n + 1 - (lo + 1) = n - lo := by omega
      rw [hr, hr2, List.range'_succ, List.map_cons, List.flatten_cons, if_pos hlt, hop]
      simp only [Nat.sub_self, pow_zero, mul_one, List.cons_append, List.nil_append]
      refine congrArg (List.cons _) (congrArg (List.cons _) (congrArg List.flatten ?_))
      refine List.map_congr_left ?_
      intro k hk
      obtain ⟨i, hi, hki⟩ := List.mem_range'.mp hk
      have hklo : lo + 1 ≤ k := by omega
      have hmul : dc * m * m ^ (k - (lo + 1)) = dc * m ^ (k - lo) := by
        have hke : k - lo = (k - (lo + 1)) + 1 := by omega
        rw [hke, pow_succ]
        ring
      rw [hmul]
    · have hn : n = lo := by omega
      subst hn
      rw [retryLoop, if_pos h2, hop]
      dsimp only
      rw [if_neg hlt]
      dsimp only
      rw [retryLoop, if_neg (by omega : ¬ n + 1 ≤ n)]
      dsimp only
      refine ⟨rfl, ?_⟩
      have h1 : n + 1 - n = 1 := by omega
      rw [h1, List.range'_one, List.map_singleton, List.flatten_cons, if_neg hlt, hop]
      simp
termination_by n + 1 - lo
decreasing_by omega

theorem countAttempts_nil {E T : Type} : countAttempts ([] : List (REvent E T)) = 0 := by
  simp [countAttempts]

theorem countAttempts_cons_attempt {E T : Type} (a : Nat) (o : Except E T)
    (l : List (REvent E T)) :
    countAttempts (REvent.attemptEv a o :: l) = countAttempts l + 1 := by
  simp [countAttempts, List.countP_cons, isAttemptEv]

theorem countAttempts_cons_sleep {E T : Type} (d : Nat) (l : List (REvent E T)) :
    countAttempts (REvent.sleepEv d :: l) = countAttempts l := by
  simp [countAttempts, List.countP_cons, isAttemptEv]

theorem retryLoop_count_le {E T : Type} (operation : Nat → Except E T)
    (n lo dc m : Nat) (le : Option E) :
    countAttempts (retryLoop operation n lo dc m le).2 ≤ n + 1 - lo := by
  by_cases h : lo ≤ n
  · cases hop : operation lo with
    | ok v =>
      rw [retryLoop, if_pos h, hop]
      dsimp only
      rw [countAttempts_cons_attempt, countAttempts_nil]
      omega
    | error e =>
      by_cases hlt : lo < n
      · have ih := retryLoop_count_le operation n (lo + 1) (dc * m) m (some e)
        rw [retryLoop, if_pos h, hop]
        dsimp only
        rw [if_pos hlt]
        dsimp only
        rw [countAttempts_cons_attempt, countAttempts_cons_sleep]
        omega
      · have ih := retryLoop_count_le operation n (lo + 1) dc m (some e)
        rw [retryLoop, if_pos h, hop]
        dsimp only
        rw [if_neg hlt]
        dsimp only
        rw [countAttempts_cons_attempt]
        omega
  · rw [retryLoop, if_neg h]
    rw [countAttempts_nil]
    omega
termination_by n + 1 - lo
decreasing_by all_goals omega

theorem retryLoop_first_success {E T : Type} (operation : Nat → Except E T)
    (n lo dc m : Nat) (le : Option E) (k : Nat) (v : T)
    (hlo : lo ≤ k) (hk : k ≤ n)
    (hbefore : ∀ j, lo ≤ j → j < k → exceptIsOk (operation j) = false)
    (hsucc : operation k = .ok v) :
    (retryLoop operation n lo dc m le).1 = .ok v ∧
      countAttempts (retryLoop operation n lo dc m le).2 = k + 1 - lo := by
  have h : lo ≤ n := le_trans hlo hk
  by_cases heq : lo = k
  · subst heq
    rw [retryLoop, if_pos h, hsucc]
    dsimp only
    rw [countAttempts_cons_attempt, countAttempts_nil]
    exact ⟨rfl, by omega⟩
  · have hlt : lo < k := lt_of_le_of_ne hlo heq
    have hfl := hbefore lo (le_refl lo) hlt
    cases hop : operation lo with
    | ok w => rw [hop] at hfl; simp [exceptIsOk] at hfl
    | error e =>
      have hln : lo < n := by omega
      have ih := retryLoop_first_success operation n (lo + 1) (dc * m) m (some e) k v
        hlt hk (fun j hj1 hj2 => hbefore j (by omega) hj2) hsucc
      rw [retryLoop, if_pos h, hop]
      dsimp only
      rw [if_pos hln]
      dsimp only
      refine ⟨ih.1, ?_⟩
      have ih2 := ih.2
      rw [countAttempts_cons_attempt, countAttempts_cons_sleep]
      omega
termination_by n + 1 - lo
decreasing_by all_goals omega

theorem countAttempts_failEvents_aux {E T : Type} (operation : Nat → Except E T)
    (dc m n : Nat) (l : List Nat) :
    countAttempts ((l.map (fun k =>
      REvent.attemptEv (E := E) (T := T) k (operation k) ::
        (if k < n then [REvent.sleepEv (dc * m ^ (k - 1))] else []))).flatten) = l.length := by
  induction l with
  | nil => simp [countAttempts]
  | cons a t ih =>
    simp only [List.map_cons, List.flatten_cons, countAttempts, List.countP_append]
    simp only [countAttempts] at ih
    rw [ih]
    by_cases ha : a < n <;> simp [ha, isAttemptEv, List.countP_cons] <;> omega

/-- C5: for `maxAttempts = n ≥ 1` the wrapper invokes the operation at most
`n` times; if the first success is at attempt `k` it returns that result
with exactly `k` invocations; if every attempt fails it performs exactly
`n` invocations and rethrows the final attempt's error verbatim
(`Except.error (some e)` with `e` the exact error value — no wrapper
type). -/
theorem retryWithBackoff_attempt_bound {E T : Type} (operation : Nat → Except E T)
    (n d m : Nat) (h : 1 ≤ n) :
    countAttempts (retryWithBackoff operation ⟨n, d, m⟩).2 ≤ n ∧
    (∀ k v, 1 ≤ k → k ≤ n →
      (∀ j, 1 ≤ j → j < k → exceptIsOk (operation j) = false) →
      operation k = .ok v →
      (retryWithBackoff operation ⟨n, d, m⟩).1 = .ok v ∧
        countAttempts (retryWithBackoff operation ⟨n, d, m⟩).2 = k) ∧
    (∀ e, (∀ j, 1 ≤ j → j ≤ n → exceptIsOk (operation j) = false) →
      operation n = .error e →
      (retryWithBackoff operation ⟨n, d, m⟩).1 = .error (some e) ∧
        countAttempts (retryWithBackoff operation ⟨n, d, m⟩).2 = n) := by
  refine ⟨?_, ?_, ?_⟩
  · have hc := retryLoop_count_le operation n 1 d m none
    simpa [retryWithBackoff] using hc
  · intro k v hk1 hk2 hbefore hsucc
    have hs := retryLoop_first_success operation n 1 d m none k v hk1 hk2 hbefore hsucc
    simpa [retryWithBackoff] using hs
  · intro e hfail herr
    have hall := retryLoop_all_fail operation n 1 d m none h hfail
    constructor
    · rw [retryWithBackoff, hall.1, herr]
      rfl
    · rw [retryWithBackoff, hall.2]
      have hsub : n + 1 - 1 = n := by omega
      rw [hsub]
      have hcount := countAttempts_failEvents_aux operation d m n (List.range' 1 n)
      simpa using hcount

/-- Closed instance of `retryWithBackoff_attempt_bound`: an operation that
fails on attempt 1 and succeeds on attempt 2, under `maxAttempts = 3`,
returns the success after exactly 2 invocations. -/
theorem retryWithBackoff_attempt_bound_witness :
    (retryWithBackoff (fun k => if k = 2 then (.ok 42 : Except String Nat) else .error "boom")
      ⟨3, 10, 2⟩).1 = .ok 42 ∧
    countAttempts (retryWithBackoff
      (fun k => if k = 2 then (.ok 42 : Except String Nat) else .error "boom") ⟨3, 10, 2⟩).2 = 2 :=
  (retryWithBackoff_attempt_bound
      (fun k => if k = 2 then (.ok 42 : Except String Nat) else .error "boom") 3 10 2
      (by decide)).2.1 2 42 (by decide) (by decide)
    (fun j h1 h2 => by
      have hj : j = 1 := by omega
      subst hj; rfl)
    rfl

/-- C6: in an all-fail run the full event trace equals the spec's
`failEvents`: the sleep between attempt `k` and `k + 1` is
`delayMs * backoffMultiplier ^ (k - 1)`, no sleep precedes attempt 1 and
none follows the final failed attempt; and `maxAttempts = 1` is a single
bare call with no sleep at all. -/
theorem retryWithBackoff_backoff_delays {E T : Type} (operation : Nat → Except E T)
    (n d m : Nat) (h : 1 ≤ n) :
    ((∀ j, 1 ≤ j → j ≤ n → exceptIsOk (operation j) = false) →
      (retryWithBackoff operation ⟨n, d, m⟩).2 = failEvents operation d m n) ∧
    (retryWithBackoff operation ⟨1, d, m⟩).2 = [REvent.attemptEv 1 (operation 1)] := by
  constructor
  · intro hfail
    have hall := retryLoop_all_fail operation n 1 d m none h hfail
    rw [retryWithBackoff, hall.2, failEvents]
    have hsub : n + 1 - 1 = n := by omega
    rw [hsub]
  · rw [retryWithBackoff, retryLoop, if_pos (le_refl 1)]
    cases hop : operation 1 with
    | ok v => rfl
    | error e =>
      dsimp only
      rw [if_neg (lt_irrefl 1)]
      dsimp only
      rw [retryLoop, if_neg (by omega : ¬ 1 + 1 ≤ 1)]

/-- Closed instance of `retryWithBackoff_backoff_delays`: three failing
attempts with `delayMs = 100`, `backoffMultiplier = 2` produce sleeps of
exactly 100 then 200, strictly between the attempts. -/
theorem retryWithBackoff_backoff_delays_witness :
    (retryWithBackoff (fun _ => (.error "boom" : Except String Unit)) ⟨3, 100, 2⟩).2 =
      [REvent.attemptEv 1 (.error "boom"), REvent.sleepEv 100,
       REvent.attemptEv 2 (.error "boom"), REvent.sleepEv 200,
       REvent.attemptEv 3 (.error "boom")] := by
  have h := (retryWithBackoff_backoff_delays
    (fun _ => (.error "boom" : Except String Unit)) 3 100 2 (by decide)).1
    (fun j h1 h2 => rfl)
  rw [h]
  rfl

/-- C10: calling `retryWithBackoff` with `maxAttempts = 0` (outside the
documented precondition) never invokes the operation (empty trace) and
rejects with the JS `undefined` value (`Except.error none`), not an Error
object. -/
theorem retryWithBackoff_zero_attempts {E T : Type} (operation : Nat → Except E T)
    (d m : Nat) :
    retryWithBackoff operation ⟨0, d, m⟩ = (.error none, []) := by
  rw [retryWithBackoff, retryLoop]
  simp

/-! ## Guardian Submitter: `L3Client` (src/l3/client.ts) -/

/-- The error object an axios call rejects with (only its `message` field is
observable in `submitAttestation`'s aggregation). -/
structure AxiosFailure where
  message : String
deriving DecidableEq

/-- The parsed JSON body of a successful `POST {endpoint}/attestation/submit`
response (`response.data`). -/
structure GuardianSubmitResponse where
  attestation_id : String
  submission_time : String
  status : String
deriving DecidableEq

/-- The `AttestationSubmission` record built from a successful response.
`new Date(response.data.submission_time)` is an external Date constructor;
the submission time is modelled as the raw string it was built from. -/
structure AttestationSubmission where
  attestationId : String
  submissionTime : String
  status : String
deriving DecidableEq

/-- The `L3Error` thrown when every guardian fails (src/utils/errors.ts). -/
structure L3Error where
  message : String
deriving DecidableEq

/-- The interpolation `${lastError?.message || 'unknown error'}`: JS `||`
falls back when the message is `undefined` (no error recorded) or the empty
string. -/
def lastErrorMessage : Option AxiosFailure → String
  | some e => if e.message = "" then "unknown error" else e.message
  | none => "unknown error"

/-- The `for (const endpoint of this.config.endpoints)` loop of
`L3Client.submitAttestation` (src/l3/client.ts lines 44-93).  Each list
element is the outcome of the single `axios.post` issued to the endpoint at
that position (in configured order): `.ok` is a 2xx response with its parsed
body, `.error` is any failure (network error, non-2xx status, timeout).
Returns the call's outcome together with the number of HTTP POSTs issued.
The base64 payload construction (lines 35-42) does not influence control
flow and is not modelled. -/
def submitAttestationGo (endpoints : List (Except AxiosFailure GuardianSubmitResponse))
    (lastError : Option AxiosFailure) : Except L3Error AttestationSubmission × Nat :=
  match endpoints with
  | [] => (.error ⟨"All guardians unreachable: " ++ lastErrorMessage lastError⟩, 0)
  | .ok response :: _ =>
    (.ok ⟨response.attestation_id, response.submission_time, response.status⟩, 1)
  | .error e :: rest =>
    let r := submitAttestationGo rest (some e)
    (r.1, r.2 + 1)

/-- `L3Client.submitAttestation`: the endpoint loop started with
`lastError = undefined`. -/
def submitAttestation (endpoints : List (Except AxiosFailure GuardianSubmitResponse)) :
    Except L3Error AttestationSubmission × Nat :=
  submitAttestationGo endpoints none

theorem submitAttestationGo_first_success
    (endpoints : List (Except AxiosFailure GuardianSubmitResponse))
    (le : Option AxiosFailure) (k : Nat) (resp : GuardianSubmitResponse)
    (hk : k < endpoints.length)
    (hfail : ∀ j, j < k → exceptIsOk (endpoints.getD j (.error ⟨""⟩)) = false)
    (hsucc : endpoints.getD k (.error ⟨""⟩) = .ok resp) :
    submitAttestationGo endpoints le =
      (.ok ⟨resp.attestation_id, resp.submission_time, resp.status⟩, k + 1) := by
  induction endpoints generalizing k le with
  | nil => simp at hk
  | cons b rest ih =>
    cases k with
    | zero =>
      simp only [List.getD_cons_zero] at hsucc
      subst hsucc
      rfl
    | succ k' =>
      have hb := hfail 0 (Nat.succ_pos k')
      simp only [List.getD_cons_zero] at hb
      cases b with
      | ok r => simp [exceptIsOk] at hb
      | error e =>
        simp only [List.getD_cons_succ] at hsucc
        simp only [List.length_cons] at hk
        rw [submitAttestationGo]
        rw [ih (some e) k' (by omega)
          (fun j hj => by
            have := hfail (j + 1) (by omega)
            simpa using this)
          hsucc]

/-- C4: `submitAttestation` tries endpoints strictly in configured order,
one POST each; at the first success (position `k`, 0-based, all earlier
positions failing) it returns the parsed submission immediately after
exactly `k + 1` POSTs, so no endpoint after position `k` is ever
contacted. -/
theorem submitAttestation_first_success
    (endpoints : List (Except AxiosFailure GuardianSubmitResponse))
    (k : Nat) (resp : GuardianSubmitResponse)
    (hk : k < endpoints.length)
    (hfail : ∀ j, j < k → exceptIsOk (endpoints.getD j (.error ⟨""⟩)) = false)
    (hsucc : endpoints.getD k (.error ⟨""⟩) = .ok resp) :
    submitAttestation endpoints =
      (.ok ⟨resp.attestation_id, resp.submission_time, resp.status⟩, k + 1) :=
  submitAttestationGo_first_success endpoints none k resp hk hfail hsucc

/-- Closed instance of `submitAttestation_first_success`: the spec's own
scenario — two failing endpoints then a success — returns `att-1` after
exactly 3 POSTs in list order. -/
theorem submitAttestation_first_success_witness :
    submitAttestation
        [.error ⟨"HTTP 500"⟩, .error ⟨"HTTP 500"⟩, .ok ⟨"att-1", "2024-01-01", "pending"⟩] =
      (.ok ⟨"att-1", "2024-01-01", "pending"⟩, 3) :=
  submitAttestation_first_success
    [.error ⟨"HTTP 500"⟩, .error ⟨"HTTP 500"⟩, .ok ⟨"att-1", "2024-01-01", "pending"⟩]
    2 ⟨"att-1", "2024-01-01", "pending"⟩ (by decide)
    (by intro j hj; interval_cases j <;> rfl) rfl

theorem submitAttestationGo_all_fail
    (endpoints : List (Except AxiosFailure GuardianSubmitResponse))
    (le : Option AxiosFailure) (h : endpoints ≠ [])
    (hfail : ∀ x, x ∈ endpoints → exceptIsOk x = false) :
    ∃ e : AxiosFailure, endpoints.getLast h = .error e ∧
      submitAttestationGo endpoints le =
        (.error ⟨"All guardians unreachable: " ++ lastErrorMessage (some e)⟩,
         endpoints.length) := by
  induction endpoints generalizing le with
  | nil => exact absurd rfl h
  | cons b rest ih =>
    have hb := hfail b (List.mem_cons_self b rest)
    cases b with
    | ok r => simp [exceptIsOk] at hb
    | error e =>
      cases rest with
      | nil => exact ⟨e, rfl, rfl⟩
      | cons c rest' =>
        obtain ⟨e', hl, hgo⟩ := ih (some e) (by simp)
          (fun x hx => hfail x (List.mem_cons_of_mem _ hx))
        refine ⟨e', ?_, ?_⟩
        · rw [List.getLast_cons (by simp)]
          exact hl
        · rw [submitAttestationGo]
          rw [hgo]
          simp

/-- C1 (amended): if every configured endpoint fails, `submitAttestation`
raises a single aggregated `L3Error` after exactly `N` POSTs
(`N` = number of configured endpoints); the error names the last
per-endpoint error observed (prefixed `All guardians unreachable: `) but
does not include the endpoint count. -/
theorem submitAttestation_all_fail_aggregated
    (endpoints : List (Except AxiosFailure GuardianSubmitResponse))
    (h : endpoints ≠ [])
    (hfail : ∀ x, x ∈ endpoints → exceptIsOk x = false) :
    ∃ e : AxiosFailure, endpoints.getLast h = .error e ∧
      submitAttestation endpoints =
        (.error ⟨"All guardians unreachable: " ++ lastErrorMessage (some e)⟩,
         endpoints.length) :=
  submitAttestationGo_all_fail endpoints none h hfail

/-- Closed instance of `submitAttestation_all_fail_aggregated`: two failing
endpoints yield the aggregated error naming the last failure, after 2
POSTs. -/
theorem submitAttestation_all_fail_aggregated_witness :
    ∃ e : AxiosFailure,
      ([.error ⟨"boom"⟩, .error ⟨"crash"⟩] :
        List (Except AxiosFailure GuardianSubmitResponse)).getLast (by simp) = .error e ∧
      submitAttestation [.error ⟨"boom"⟩, .error ⟨"crash"⟩] =
        (.error ⟨"All guardians unreachable: " ++ lastErrorMessage (some e)⟩, 2) :=
  submitAttestation_all_fail_aggregated
    [.error ⟨"boom"⟩, .error ⟨"crash"⟩] (by simp) (by decide)

/-- Counterexample to C1 as stated: the aggregated error does not name the
total endpoint count.  Two all-fail configurations with 2 and with 3
endpoints (same last error) throw literally identical errors, and the
2-endpoint error's message does not even contain the character `2`. -/
theorem submitAttestation_error_omits_endpoint_count :
    (submitAttestation [.error ⟨"boom"⟩, .error ⟨"crash"⟩]).1 =
      (submitAttestation [.error ⟨"x"⟩, .error ⟨"y"⟩, .error ⟨"crash"⟩]).1 ∧
    (submitAttestation [.error ⟨"boom"⟩, .error ⟨"crash"⟩]).1 =
      .error ⟨"All guardians unreachable: crash"⟩ ∧
    ¬ '2' ∈ "All guardians unreachable: crash".toList := by
  refine ⟨rfl, rfl, ?_⟩
  decide

/-- The result record of `L3Client.checkGuardiansHealth`. -/
structure HealthStatus where
  reachable : Nat
  total : Nat
deriving DecidableEq

/-- The per-endpoint probe closure of `checkGuardiansHealth`
(src/l3/client.ts lines 149-158): `try { await axios.get(.../health); return
true } catch { return false }` — every rejection is absorbed into `false`. -/
def probeGuardian : Except String Unit → Bool
  | .ok _ => true
  | .error _ => false

/-- `L3Client.checkGuardiansHealth` (src/l3/client.ts lines 143-172): one
probe per configured endpoint (the input list has exactly one outcome per
endpoint, in order), probes awaited jointly via `Promise.all`, then
`reachable = results.filter(r => r).length` and
`total = endpoints.length`.  The function is total — it never throws. -/
def checkGuardiansHealth (probes : List (Except String Unit)) : HealthStatus :=
  ⟨((probes.map probeGuardian).filter (fun r => r)).length, probes.length⟩


theorem filterTrueLength_eq_count (l : List Bool) :
    (l.filter (fun r => r)).length = l.count true := by
  induction l with
  | nil => rfl
  | cons a t ih => cases a <;> simp [List.count_cons, ih]

theorem reachable_mono (p q : List (Except String Unit)) (hlen : q.length = p.length)
    (himp : ∀ i, i < p.length →
      probeGuardian (q.getD i (.error "")) = true →
      probeGuardian (p.getD i (.error "")) = true) :
    ((q.map probeGuardian).filter (fun r => r)).length ≤
      ((p.map probeGuardian).filter (fun r => r)).length := by
  induction p generalizing q with
  | nil =>
    cases q with
    | nil => simp
    | cons b t => simp at hlen
  | cons a t ih =>
    cases q with
    | nil => simp at hlen
    | cons b s =>
      simp only [List.length_cons] at hlen
      have h0 := himp 0 (by simp)
      simp only [List.getD_cons_zero] at h0
      have hrest := ih s (by omega)
        (fun i hi hb => by
          have hstep := himp (i + 1) (by simpa using Nat.succ_lt_succ hi)
          simp only [List.getD_cons_succ] at hstep
          exact hstep hb)
      simp only [List.map_cons, List.filter_cons]
      cases hb : probeGuardian b with
      | true =>
        have ha := h0 hb
        rw [ha]
        simpa using Nat.succ_le_succ hrest
      | false =>
        cases hpa : probeGuardian a <;> simp <;> omega

/-- C7: `checkGuardiansHealth` probes every configured endpoint exactly once
(one outcome per endpoint), returns the successful-probe count with the
configured total, and never raises (it is a total function into
`HealthStatus`); failing any additional subset of endpoints only lowers the
reachable count, leaving the total and the other probes unaffected. -/
theorem checkGuardiansHealth_counts (probes : List (Except String Unit)) :
    (checkGuardiansHealth probes).total = probes.length ∧
    (checkGuardiansHealth probes).reachable = (probes.map probeGuardian).count true ∧
    (checkGuardiansHealth probes).reachable ≤ (checkGuardiansHealth probes).total ∧
    ∀ qs : List (Except String Unit), qs.length = probes.length →
      (∀ i, i < probes.length →
        probeGuardian (qs.getD i (.error "")) = true →
        probeGuardian (probes.getD i (.error "")) = true) →
      (checkGuardiansHealth qs).reachable ≤ (checkGuardiansHealth probes).reachable ∧
      (checkGuardiansHealth qs).total = (checkGuardiansHealth probes).total := by
  refine ⟨rfl, ?_, ?_, ?_⟩
  · exact filterTrueLength_eq_count (probes.map probeGuardian)
  · calc ((probes.map probeGuardian).filter (fun r => r)).length
        ≤ (probes.map probeGuardian).length := List.length_filter_le _ _
      _ = probes.length := List.length_map _ _
  · intro qs hlen himp
    exact ⟨reachable_mono probes qs hlen himp, by simp [checkGuardiansHealth, hlen]⟩

/-- Closed instance of `checkGuardiansHealth_counts`: the spec's scenario —
one timeout among three endpoints — gives reachable 2 of total 3 without
raising; degrading one more endpoint only lowers the count. -/
theorem checkGuardiansHealth_counts_witness :
    checkGuardiansHealth [.ok (), .error "timeout", .ok ()] = ⟨2, 3⟩ ∧
    (checkGuardiansHealth [.ok (), .error "timeout", .error "refused"]).reachable ≤
      (checkGuardiansHealth [.ok (), .error "timeout", .ok ()]).reachable :=
  ⟨by decide,
   ((checkGuardiansHealth_counts [.ok (), .error "timeout", .ok ()]).2.2.2
      [.ok (), .error "timeout", .error "refused"] (by decide)
      (by
        intro i hi
        match i, hi with
        | 0, _ => simp [probeGuardian]
        | 1, _ => simp [probeGuardian]
        | 2, _ => simp [probeGuardian])).1⟩

/-! ## Socket client lifecycle (src/vsock/client.ts) -/

/-- The observable connection state of a socket client instance:
`hasSocket` is whether `this.socket` is set (it is assigned before any
connect and never cleared by `disconnect`), `connected` is the
`this.connected` flag behind `isConnected()`.  Both `UnixSocketClient`
(fields at lines 23-24) and `VsocketClient` (lines 212-213) carry exactly
these fields. -/
structure ClientConnState where
  hasSocket : Bool
  connected : Bool
deriving DecidableEq

/-- `disconnect()` — identical bodies in `UnixSocketClient` (lines 100-106)
and `VsocketClient` (lines 333-339): `if (this.socket) { this.socket.end();
this.connected = false; }`.  `socket.end()` is an external effect on the
socket object that never throws and changes neither field; the whole method
is total — it never raises. -/
def disconnect (s : ClientConnState) : ClientConnState :=
  if s.hasSocket then ⟨s.hasSocket, false⟩ else s

/-- `isConnected()` (lines 108-110 and 341-343). -/
def isConnected (s : ClientConnState) : Bool := s.connected

/-- The state of a freshly constructed, never-connected client:
`socket` is `undefined` and `connected` is initialised to `false`. -/
def newClientState : ClientConnState := ⟨false, false⟩

/-- C8: `disconnect()` is idempotent — a second call leaves the state of
the first; on a never-connected instance it is a no-op and `isConnected()`
stays `false`; and on every state satisfying the class invariant
(`connected` implies a socket is set, which holds on all reachable states
since `connect()` assigns the socket before setting `connected`), any
`disconnect()` leaves `isConnected()` false.  Totality of `disconnect`
models that the call never raises. -/
theorem disconnect_idempotent :
    (∀ s, disconnect (disconnect s) = disconnect s) ∧
    disconnect newClientState = newClientState ∧
    isConnected newClientState = false ∧
    ∀ s, (s.connected = true → s.hasSocket = true) →
      isConnected (disconnect s) = false := by
  refine ⟨?_, rfl, rfl, ?_⟩
  · intro s
    by_cases h : s.hasSocket = true
    · simp [disconnect, h]
    · simp [disconnect, h]
  · intro s hinv
    by_cases h : s.hasSocket = true
    · simp [disconnect, isConnected, h]
    · have : s.connected = false := by
        cases hc : s.connected with
        | false => rfl
        | true => exact absurd (hinv hc) h
      simp [disconnect, isConnected, h, this]

/-- Closed instance of `disconnect_idempotent`: disconnecting a connected
client (socket present) leaves it reporting not-connected. -/
theorem disconnect_idempotent_witness :
    isConnected (disconnect ⟨true, true⟩) = false :=
  disconnect_idempotent.2.2.2 ⟨true, true⟩ (fun _ => rfl)

/-! ## `VsocketClient.sendRequest` retry behaviour (src/vsock/client.ts
lines 291-331) -/

/-- The outcomes of the primitive effects one `VsocketClient.sendRequest`
call can perform, in program order: the first `writeMessage`, the first
`readMessage` (resolved or rejected by `handleData`; a rejection with a
`JSON parse failed` message is the transport parse error), and — only
reached on the catch path — the `connect()` call, the second `writeMessage`
and the second `readMessage`. -/
structure VsockSendOutcomes (α : Type) where
  firstWrite : Except String Unit
  firstRead : Except String α
  reconnect : Except String Unit
  secondWrite : Except String Unit
  secondRead : Except String α

/-- The catch block of `sendRequest` (lines 313-330): mark disconnected,
destroy the socket, `await this.connect()` (whose failure propagates), then
write the same request again and read once more; the count tracks how many
`writeMessage` calls have been performed in total. -/
def vsockSendCatch {α : Type} (t : VsockSendOutcomes α) : Except String α × Nat :=
  match t.reconnect with
  | .error ce => (.error ce, 1)
  | .ok _ =>
    match t.secondWrite with
    | .error we => (.error we, 2)
    | .ok _ => (t.secondRead, 2)

/-- `VsocketClient.sendRequest` (lines 291-331), assuming the client starts
connected: `try { await writeMessage(req); return await readMessage() }`
with a catch-all that reconnects and resends the same request exactly once.
Returns the call's outcome and the total number of `writeMessage`
invocations (1 = the request went out once, 2 = it was resent). -/
def vsockSendRequest {α : Type} (t : VsockSendOutcomes α) : Except String α × Nat :=
  match t.firstWrite with
  | .error _ => vsockSendCatch t
  | .ok _ =>
    match t.firstRead with
    | .ok response => (.ok response, 1)
    | .error _ => vsockSendCatch t

/-- C2 is violated by `VsocketClient`: when the first read completes a frame
whose payload is not valid JSON (the `JSON parse failed` rejection), the
catch-all of `sendRequest` swallows the parse error, reconnects, resends
the request (2 writes in total) and returns whatever the second read
yields — the call neither fails with the parse error nor refrains from
resending. -/
theorem vsockSendRequest_resends_after_parse_error :
    vsockSendRequest
      (⟨.ok (), .error "JSON parse failed: Unexpected token", .ok (), .ok (),
        .ok "response-to-resent-request"⟩ : VsockSendOutcomes String) =
      (.ok "response-to-resent-request", 2) := rfl

/-! ## Wire protocol: framing and partial-read reassembly
(src/vsock/client.ts `writeMessage` lines 349-371, `readMessage` lines
377-382, `handleData` lines 388-423) -/

/-- `Buffer.writeUInt32BE(value, 0)` into a 4-byte buffer: the big-endian
bytes of `value` (the JS call throws a RangeError for `value ≥ 2^32`;
theorems carry that bound as a hypothesis). -/
def toBytesBE32 (value : Nat) : List Nat :=
  [value / 2 ^ 24 % 256, value / 2 ^ 16 % 256, value / 2 ^ 8 % 256, value % 256]

/-- `buffer.readUInt32BE(0)`: big-endian 32-bit read of the first four
bytes (callers guard `buffer.length >= 4`). -/
def readUInt32BE (buf : List Nat) : Nat :=
  buf.getD 0 0 * 2 ^ 24 + buf.getD 1 0 * 2 ^ 16 + buf.getD 2 0 * 2 ^ 8 + buf.getD 3 0

/-- `writeMessage` (lines 349-371): serialise, prepend the 4-byte big-endian
byte length, send both parts as one combined byte sequence.  The JSON
serialisation itself is external (`JSON.stringify`); this takes the
already-serialised payload bytes. -/
def writeMessage (jsonBuffer : List Nat) : List Nat :=
  toBytesBE32 jsonBuffer.length ++ jsonBuffer

/-- Observable state of a `VsocketClient`'s receive side:
`dataBuffer` is the accumulation buffer (line 216), `pendingResponse`
whether a `readMessage` promise is waiting (lines 217-220, 377-382),
`resolvedResponses` / `rejectedErrors` the values delivered to waiting
`readMessage` calls so far, and `parsedPayloads` every payload byte string
handed to `JSON.parse`, in order. -/
structure VsockState (α : Type) where
  dataBuffer : List Nat
  pendingResponse : Bool
  resolvedResponses : List α
  rejectedErrors : List String
  parsedPayloads : List (List Nat)
deriving DecidableEq

/-- The `while (this.dataBuffer.length >= 4)` loop of `handleData`
(lines 393-422): read the length prefix, and once `4 + length` bytes are
present extract `slice(4, 4 + length)`, drop the consumed bytes, hand the
payload to the parser (`JSON.parse`, passed in as `parse`), and deliver the
result to the pending `readMessage` if there is one — resolving on success,
rejecting with `JSON parse failed: ...` on failure; with no pending
`readMessage` the parse result is dropped either way. -/
def handleLoop {α : Type} (parse : List Nat → Except String α) (buffer : List Nat)
    (pending : Bool) (resolved : List α) (rejected : List String)
    (parsed : List (List Nat)) : VsockState α :=
  if _h4 : 4 ≤ buffer.length then
    let length := readUInt32BE buffer
    if _hc : 4 + length ≤ buffer.length then
      let messageBuffer := (buffer.drop 4).take length
      let rest := buffer.drop (4 + length)
      match parse messageBuffer with
      | .ok response =>
        if pending then
          handleLoop parse rest false (resolved ++ [response]) rejected
            (parsed ++ [messageBuffer])
        else
          handleLoop parse rest pending resolved rejected (parsed ++ [messageBuffer])
      | .error e =>
        if pending then
          handleLoop parse rest false resolved
            (rejected ++ ["JSON parse failed: " ++ e]) (parsed ++ [messageBuffer])
        else
          handleLoop parse rest pending resolved rejected (parsed ++ [messageBuffer])
    else ⟨buffer, pending, resolved, rejected, parsed⟩
  else ⟨buffer, pending, resolved, rejected, parsed⟩
termination_by buffer.length
decreasing_by all_goals (simp [List.length_drop]; omega)

/-- `handleData(chunk)` (lines 388-423): append the chunk to the
accumulation buffer, then run the frame-extraction loop. -/
def handleData {α : Type} (parse : List Nat → Except String α) (st : VsockState α)
    (chunk : List Nat) : VsockState α :=
  handleLoop parse (st.dataBuffer ++ chunk) st.pendingResponse st.resolvedResponses
    st.rejectedErrors st.parsedPayloads

/-- A sequence of socket `data` events delivering the given chunks in
order. -/
def processChunks {α : Type} (parse : List Nat → Except String α) (st : VsockState α)
    (chunks : List (List Nat)) : VsockState α :=
  chunks.foldl (handleData parse) st

/-- A client state with an empty accumulation buffer and no history;
`pending` states whether a `readMessage` is currently awaiting a frame. -/
def initialVsockState {α : Type} (pending : Bool) : VsockState α :=
  ⟨[], pending, [], [], []⟩

theorem readUInt32BE_frame (n : Nat) (h : n < 2 ^ 32) (tail : List Nat) :
    readUInt32BE (toBytesBE32 n ++ tail) = n := by
  simp only [readUInt32BE, toBytesBE32, List.cons_append, List.nil_append,
    List.getD_cons_zero, List.getD_cons_succ]
  omega

theorem writeMessage_length (p : List Nat) : (writeMessage p).length = 4 + p.length := by
  simp [writeMessage, toBytesBE32]
  omega

theorem toBytesBE32_append_drop (n : Nat) (x : List Nat) :
    (toBytesBE32 n ++ x).drop 4 = x := by
  simp [toBytesBE32]

theorem handleLoop_nil {α : Type} (parse : List Nat → Except String α) (pending : Bool)
    (resolved : List α) (rejected : List String) (parsed : List (List Nat)) :
    handleLoop parse [] pending resolved rejected parsed =
      ⟨[], pending, resolved, rejected, parsed⟩ := by
  rw [handleLoop, dif_neg (by simp)]

theorem writeMessage_append_drop_head (p rest : List Nat) :
    ((writeMessage p ++ rest).drop 4) = p ++ rest := by
  rw [writeMessage, List.append_assoc, toBytesBE32_append_drop]

theorem writeMessage_append_read (p rest : List Nat) (hp : p.length < 2 ^ 32) :
    readUInt32BE (writeMessage p ++ rest) = p.length := by
  rw [writeMessage, List.append_assoc]
  exact readUInt32BE_frame p.length hp (p ++ rest)

theorem handleLoop_frame_ok {α : Type} (parse : List Nat → Except String α)
    (p rest : List Nat) (v : α) (hp : p.length < 2 ^ 32) (hv : parse p = .ok v)
    (pending : Bool) (resolved : List α) (rejected : List String)
    (parsed : List (List Nat)) :
    handleLoop parse (writeMessage p ++ rest) pending resolved rejected parsed =
      handleLoop parse rest false (resolved ++ if pending then [v] else []) rejected
        (parsed ++ [p]) := by
  have hlen : (writeMessage p ++ rest).length = 4 + p.length + rest.length := by
    rw [List.length_append, writeMessage_length]
  have hread := writeMessage_append_read p rest hp
  rw [handleLoop, dif_pos (by omega)]
  dsimp only
  rw [hread, dif_pos (by omega)]
  have hmsg : ((writeMessage p ++ rest).drop 4).take p.length = p := by
    rw [writeMessage_append_drop_head]
    exact List.take_left p rest
  have hdrop : (writeMessage p ++ rest).drop (4 + p.length) = rest := by
    have hd := List.drop_left (writeMessage p) rest
    rwa [writeMessage_length] at hd
  rw [hmsg, hdrop, hv]
  cases pending <;> simp

theorem handleLoop_frame_err {α : Type} (parse : List Nat → Except String α)
    (p rest : List Nat) (msg : String) (hp : p.length < 2 ^ 32)
    (hv : parse p = .error msg) (pending : Bool) (resolved : List α)
    (rejected : List String) (parsed : List (List Nat)) :
    handleLoop parse (writeMessage p ++ rest) pending resolved rejected parsed =
      handleLoop parse rest false resolved
        (rejected ++ if pending then ["JSON parse failed: " ++ msg] else [])
        (parsed ++ [p]) := by
  have hlen : (writeMessage p ++ rest).length = 4 + p.length + rest.length := by
    rw [List.length_append, writeMessage_length]
  have hread := writeMessage_append_read p rest hp
  rw [handleLoop, dif_pos (by omega)]
  dsimp only
  rw [hread, dif_pos (by omega)]
  have hmsg : ((writeMessage p ++ rest).drop 4).take p.length = p := by
    rw [writeMessage_append_drop_head]
    exact List.take_left p rest
  have hdrop : (writeMessage p ++ rest).drop (4 + p.length) = rest := by
    have hd := List.drop_left (writeMessage p) rest
    rwa [writeMessage_length] at hd
  rw [hmsg, hdrop, hv]
  cases pending <;> simp

theorem handleLoop_incomplete {α : Type} (parse : List Nat → Except String α)
    (p : List Nat) (t : Nat) (ht : t < 4 + p.length) (hp : p.length < 2 ^ 32)
    (pending : Bool) (resolved : List α) (rejected : List String)
    (parsed : List (List Nat)) :
    handleLoop parse ((writeMessage p).take t) pending resolved rejected parsed =
      ⟨(writeMessage p).take t, pending, resolved, rejected, parsed⟩ := by
  have hlen : ((writeMessage p).take t).length = t := by
    rw [List.length_take, writeMessage_length]
    omega
  by_cases h4 : 4 ≤ t
  · have htb : (toBytesBE32 p.length).length = 4 := by simp [toBytesBE32]
    have hbuf : (writeMessage p).take t = toBytesBE32 p.length ++ p.take (t - 4) := by
      rw [writeMessage, List.take_append_eq_append_take, htb,
        List.take_of_length_le (by omega)]
    rw [hbuf]
    have hlen2 : (toBytesBE32 p.length ++ p.take (t - 4)).length = t := by
      rw [← hbuf]
      exact hlen
    rw [handleLoop, dif_pos (by omega)]
    dsimp only
    rw [readUInt32BE_frame p.length hp]
    rw [dif_neg (by omega)]
  · rw [handleLoop, dif_neg (by omega)]

/-- Expected receive-side state after the first `t` bytes of the frame for
payload `p` have been delivered while a `readMessage` waits (`r` the parse
result of `p`): while the frame is incomplete everything is buffered and
nothing parsed; once complete, the frame is consumed, parsed once, and
resolved to the waiting read. -/
def recvState {α : Type} (p : List Nat) (r : α) (t : Nat) : VsockState α :=
  if t < 4 + p.length then ⟨(writeMessage p).take t, true, [], [], []⟩
  else ⟨[], false, [r], [], [p]⟩

theorem handleData_recv {α : Type} (parse : List Nat → Except String α)
    (p : List Nat) (r : α) (hp : p.length < 2 ^ 32) (hr : parse p = .ok r)
    (t : Nat) (chunk : List Nat)
    (hbound : t + chunk.length ≤ 4 + p.length)
    (hpre : (writeMessage p).take t ++ chunk = (writeMessage p).take (t + chunk.length)) :
    handleData parse (recvState p r t) chunk = recvState p r (t + chunk.length) := by
  by_cases ht : t < 4 + p.length
  · rw [recvState, if_pos ht, handleData]
    dsimp only
    rw [hpre]
    by_cases ht2 : t + chunk.length < 4 + p.length
    · rw [handleLoop_incomplete parse p _ ht2 hp, recvState, if_pos ht2]
    · have hfull : (writeMessage p).take (t + chunk.length) = writeMessage p := by
        apply List.take_of_length_le
        rw [writeMessage_length]
        omega
      rw [hfull]
      have hnil : writeMessage p = writeMessage p ++ [] := (List.append_nil _).symm
      rw [hnil, handleLoop_frame_ok parse p [] r hp hr, handleLoop_nil]
      rw [recvState, if_neg ht2]
      simp
  · have hcnil : chunk = [] := List.eq_nil_of_length_eq_zero (by omega)
    subst hcnil
    have h0 : t + List.length ([] : List Nat) = t := by simp
    rw [h0, recvState, if_neg ht, handleData]
    dsimp only
    rw [List.append_nil, handleLoop_nil]

theorem processChunks_recv {α : Type} (parse : List Nat → Except String α)
    (p : List Nat) (r : α) (hp : p.length < 2 ^ 32) (hr : parse p = .ok r)
    (cs : List (List Nat)) : ∀ t : Nat,
    t + cs.flatten.length ≤ 4 + p.length →
    (writeMessage p).take t ++ cs.flatten = (writeMessage p).take (t + cs.flatten.length) →
    processChunks parse (recvState p r t) cs = recvState p r (t + cs.flatten.length) := by
  induction cs with
  | nil =>
    intro t hb hpre
    simp [processChunks]
  | cons c cs' ih =>
    intro t hb hpre
    rw [List.flatten_cons] at hb hpre ⊢
    rw [List.length_append] at hb hpre ⊢
    have htlen : ((writeMessage p).take t).length = t := by
      rw [List.length_take, writeMessage_length]
      omega
    have h1 : (writeMessage p).take t ++ c = (writeMessage p).take (t + c.length) := by
      have e1 : (writeMessage p).take (t + c.length) =
          ((writeMessage p).take (t + (c.length + cs'.flatten.length))).take (t + c.length) := by
        rw [List.take_take]
        congr 1
        omega
      rw [← hpre, List.take_append_eq_append_take, htlen] at e1
      rw [List.take_take] at e1
      have hmin : min (t + c.length) t = t := by omega
      rw [hmin] at e1
      have hsub : t + c.length - t = c.length := by omega
      rw [hsub] at e1
      rw [List.take_append_eq_append_take, List.take_of_length_le (le_refl c.length),
        Nat.sub_self, List.take_zero, List.append_nil] at e1
      exact e1.symm
    have h2 : (writeMessage p).take (t + c.length) ++ cs'.flatten =
        (writeMessage p).take (t + c.length + cs'.flatten.length) := by
      rw [← h1, List.append_assoc, hpre]
      congr 1
      omega
    have hstep := handleData_recv parse p r hp hr t c (by omega) h1
    rw [processChunks, List.foldl_cons, ← processChunks, hstep]
    have := ih (t + c.length) (by omega) h2
    rw [this]
    congr 1
    omega

/-- C3: for any envelope `r`, any serialiser/deserialiser pair that
round-trips on `r` (`JSON.parse ∘ JSON.stringify`), and any splitting of the
encoded frame `writeMessage (ser r)` into chunks — including one byte at a
time — feeding the chunks to `handleData` delivers exactly the envelope `r`
to the waiting read, once, with the deserialiser invoked exactly once on
exactly the payload bytes; and on any chunk prefix carrying fewer than
`4 + L` bytes the deserialiser has not been invoked at all. -/
theorem frame_roundtrip_chunked {Env : Type} (ser : Env → List Nat)
    (deser : List Nat → Except String Env) (r : Env)
    (hround : deser (ser r) = .ok r) (hlen : (ser r).length < 2 ^ 32)
    (cs : List (List Nat)) (hcs : cs.flatten = writeMessage (ser r)) :
    processChunks deser (initialVsockState true) cs = ⟨[], false, [r], [], [ser r]⟩ ∧
    ∀ k, ((cs.take k).flatten).length < 4 + (ser r).length →
      (processChunks deser (initialVsockState true) (cs.take k)).parsedPayloads = [] := by
  have hinit : (initialVsockState true : VsockState Env) = recvState (ser r) r 0 := by
    rw [recvState, if_pos (by omega)]
    rfl
  have hflatlen : cs.flatten.length = 4 + (ser r).length := by
    rw [hcs, writeMessage_length]
  constructor
  · have hmain := processChunks_recv deser (ser r) r hlen hround cs 0
      (by omega)
      (by
        rw [List.take_zero, List.nil_append, hcs, Nat.zero_add]
        exact (List.take_length ..).symm)
    rw [hinit, hmain, recvState, if_neg (by omega)]
  · intro k hk
    have hsplit : (cs.take k).flatten ++ (cs.drop k).flatten = writeMessage (ser r) := by
      rw [← List.flatten_append, List.take_append_drop, hcs]
    have htk : (writeMessage (ser r)).take ((cs.take k).flatten.length) =
        (cs.take k).flatten := by
      rw [← hsplit]
      exact List.take_left _ _
    have hpart := processChunks_recv deser (ser r) r hlen hround (cs.take k) 0
      (by omega)
      (by rw [List.take_zero, List.nil_append, Nat.zero_add, htk])
    rw [hinit, hpart, recvState, if_pos (by omega)]

/-- Closed instance of `frame_roundtrip_chunked`: the 5-byte frame for the
payload `[7]` delivered as chunks of sizes 1, 2, 1, 1 reassembles to a
single parsed response. -/
theorem frame_roundtrip_chunked_witness :
    processChunks
      (fun l => match l with
        | [n] => (.ok n : Except String Nat)
        | _ => .error "parse")
      (initialVsockState true) [[0], [0, 0], [1], [7]] = ⟨[], false, [7], [], [[7]]⟩ :=
  (frame_roundtrip_chunked (fun n => [n])
    (fun l => match l with
      | [n] => (.ok n : Except String Nat)
      | _ => .error "parse")
    7 rfl (by decide) [[0], [0, 0], [1], [7]] rfl).1

/-- C9: a complete frame is consumed from the accumulation buffer exactly
once — it is removed from `dataBuffer` and appears exactly once in
`parsedPayloads`; a frame (or two frames in one chunk) arriving while no
`readMessage` is pending is parsed and silently discarded (no resolution,
no rejection); and a later `send()` (which sets `pendingResponse`) is
resolved or rejected only with the *next* frame's payload `q` — the
discarded frame `p` can never be delivered to it. -/
theorem handleData_unsolicited_frame_discarded {α : Type}
    (parse : List Nat → Except String α) (p q : List Nat)
    (hp : p.length < 2 ^ 32) (hq : q.length < 2 ^ 32) :
    handleData parse (initialVsockState false) (writeMessage p) =
      ⟨[], false, [], [], [p]⟩ ∧
    handleData parse (initialVsockState false) (writeMessage p ++ writeMessage q) =
      ⟨[], false, [], [], [p, q]⟩ ∧
    (match parse q with
     | .ok v =>
        handleData parse ⟨[], true, [], [], [p]⟩ (writeMessage q) =
          ⟨[], false, [v], [], [p, q]⟩
     | .error m =>
        handleData parse ⟨[], true, [], [], [p]⟩ (writeMessage q) =
          ⟨[], false, [], ["JSON parse failed: " ++ m], [p, q]⟩) := by
  have hone : ∀ (pend : Bool) (res : List α) (rej : List String)
      (par : List (List Nat)) (x : List Nat), x.length < 2 ^ 32 →
      handleLoop parse (writeMessage x) pend res rej par =
        match parse x with
        | .ok v => ⟨[], false, res ++ (if pend then [v] else []), rej, par ++ [x]⟩
        | .error m =>
          ⟨[], false, res, rej ++ (if pend then ["JSON parse failed: " ++ m] else []),
            par ++ [x]⟩ := by
    intro pend res rej par x hx
    have hnil : writeMessage x = writeMessage x ++ [] := (List.append_nil _).symm
    cases hpx : parse x with
    | ok v =>
      rw [hnil, handleLoop_frame_ok parse x [] v hx hpx, handleLoop_nil]
    | error m =>
      rw [hnil, handleLoop_frame_err parse x [] m hx hpx, handleLoop_nil]
  refine ⟨?_, ?_, ?_⟩
  · rw [handleData]
    dsimp only [initialVsockState]
    rw [List.nil_append, hone false [] [] [] p hp]
    cases hpp : parse p <;> simp
  · rw [handleData]
    dsimp only [initialVsockState]
    rw [List.nil_append]
    have hsecond : ∀ par : List (List Nat),
        handleLoop parse (writeMessage q) false [] [] par =
          ⟨[], false, [], [], par ++ [q]⟩ := by
      intro par
      rw [hone false [] [] par q hq]
      cases hqq : parse q <;> simp
    cases hpp : parse p with
    | ok v =>
      rw [handleLoop_frame_ok parse p (writeMessage q) v hp hpp]
      simp only [if_neg Bool.false_ne_true, List.append_nil, List.nil_append]
      rw [hsecond]
      simp
    | error m =>
      rw [handleLoop_frame_err parse p (writeMessage q) m hp hpp]
      simp only [if_neg Bool.false_ne_true, List.append_nil, List.nil_append]
      rw [hsecond]
      simp
  · cases hqq : parse q with
    | ok v =>
      rw [handleData]
      dsimp only
      rw [List.nil_append, hone true [] [] [p] q hq, hqq]
      simp
    | error m =>
      rw [handleData]
      dsimp only
      rw [List.nil_append, hone true [] [] [p] q hq, hqq]
      simp

/-- Closed instance of `handleData_unsolicited_frame_discarded`: after the
frame `[1]` was discarded unsolicited, a pending read served the frame `[2]`
is rejected with that frame's own parse outcome — never with `[1]`. -/
theorem handleData_unsolicited_frame_discarded_witness :
    handleData
      (fun l => match l with
        | [1] => (.ok "one" : Except String String)
        | _ => .error "bad")
      ⟨[], true, [], [], [[1]]⟩ (writeMessage [2]) =
      ⟨[], false, [], ["JSON parse failed: " ++ "bad"], [[1], [2]]⟩ :=
  (handleData_unsolicited_frame_discarded
    (fun l => match l with
      | [1] => (.ok "one" : Except String String)
      | _ => .error "bad")
    [1] [2] (by decide) (by decide)).2.2
